import Mathlib

/-!
Verification of the synchronization core of `gitcheck` (gitcheck.py,
https_utils.py).  The Python functions are shallowly embedded: each
inspector is a pure Lean function of the raw text the corresponding git
subprocess would print, and the stateful retry gate is explicit state
passing.  Definitions follow the source line by line; theorems settle the
frozen claims about them.
-/

namespace Gitcheck

/-- Prefix test on character lists (the building block for the Python
`startswith` and `in` operators used by the source). -/
def isPrefixChars : List Char → List Char → Bool
  | [], _ => true
  | _ :: _, [] => false
  | a :: as, b :: bs => a == b && isPrefixChars as bs

/-- Helper for `containsSub`: does `n` occur contiguously in the list? -/
def containsSubAux (n : List Char) : List Char → Bool
  | [] => isPrefixChars n []
  | c :: rest => isPrefixChars n (c :: rest) || containsSubAux n rest

/-- Python substring membership `needle in haystack`. -/
def containsSub (needle haystack : String) : Bool :=
  containsSubAux needle.toList haystack.toList

/-- Helper for `splitLines`, accumulating the current line reversed. -/
def splitLinesAux : List Char → List Char → List String
  | [], cur => [String.mk cur.reverse]
  | c :: rest, cur =>
      if c == '\n' then String.mk cur.reverse :: splitLinesAux rest []
      else splitLinesAux rest (c :: cur)

/-- Python `text.split('\n')`: empty pieces are kept. -/
def splitLines (s : String) : List String :=
  splitLinesAux s.toList []

/-- Python `s.startswith(pre)`. -/
def strStartsWith (s pre : String) : Bool :=
  isPrefixChars pre.toList s.toList

/-- Drop the first `n` characters of a string. -/
def strDrop (s : String) (n : Nat) : String :=
  String.mk (s.toList.drop n)

/-! ## StateInspector (gitcheck.py lines 231-268, 487-492)

The inspectors parse the stdout of git subcommands.  A `GitEnv` records, for
one repository, exactly the raw outputs those subcommands produce: this is
the shallow embedding of `gitExec`'s successful results. -/

/-- Raw git-command outputs for one repository: `git status -suno`,
`git remote`, `git branch -r`, `git log A..B --oneline` keyed by the range
string `A..B`, and `git branch`. -/
structure GitEnv where
  statusOut : String
  remoteOut : String
  branchROut : String
  logOut : String → String
  branchOut : String

/-- One short-status line matched against the source regex `^(.{2}) (.*)`
(gitcheck.py line 234): two leading characters, a space, then the path. -/
def statusEntry (line : String) : Option (String × String) :=
  match line.toList with
  | c1 :: c2 :: ' ' :: rest => some (String.mk [c1, c2], String.mk rest)
  | _ => none

/-- getLocalFilesChange (gitcheck.py lines 231-245) under the default
configuration: the `--localignore` pattern defaults to a regex matching only
the empty line, so empty lines are skipped and every other line is kept when
it matches the two-character short-status pattern. -/
def getLocalFilesChange (env : GitEnv) : List (String × String) :=
  (splitLines env.statusOut).filterMap fun line =>
    if line == "" then none else statusEntry line

/-- getRemoteRepositories (gitcheck.py lines 487-492): the non-empty lines of
`git remote`. -/
def getRemoteRepositories (env : GitEnv) : List String :=
  (splitLines env.remoteOut).filter fun x => x ≠ ""

/-- hasRemoteBranch (gitcheck.py lines 248-250): substring test of
`remote/branch` against the `git branch -r` listing. -/
def hasRemoteBranch (env : GitEnv) (remote branch : String) : Bool :=
  containsSub (remote ++ "/" ++ branch) env.branchROut

/-- getLocalToPush (gitcheck.py lines 253-259): empty when the remote branch
is absent, otherwise the non-empty lines of `git log remote/branch..branch`. -/
def getLocalToPush (env : GitEnv) (remote branch : String) : List String :=
  if hasRemoteBranch env remote branch then
    (splitLines (env.logOut (remote ++ "/" ++ branch ++ ".." ++ branch))).filter
      fun x => x ≠ ""
  else []

/-- getRemoteToPull (gitcheck.py lines 262-268): empty when the remote branch
is absent, otherwise the non-empty lines of `git log branch..remote/branch`. -/
def getRemoteToPull (env : GitEnv) (remote branch : String) : List String :=
  if hasRemoteBranch env remote branch then
    (splitLines (env.logOut (branch ++ ".." ++ remote ++ "/" ++ branch))).filter
      fun x => x ≠ ""
  else []

/-! ## canSafelyPull (gitcheck.py lines 344-378) -/

/-- The `for remote in remotes` loop of canSafelyPull (lines 357-376): the
first remote that carries the tracking branch and is behind decides the
answer; later remotes are never consulted. -/
def canSafelyPullLoop (env : GitEnv) (branch : String) : List String → Bool × String
  | [] => (false, "No remote branches to pull from")
  | remote :: rest =>
      if !(hasRemoteBranch env remote branch) then canSafelyPullLoop env branch rest
      else
        let behind := getRemoteToPull env remote branch
        if behind.isEmpty then canSafelyPullLoop env branch rest
        else
          let ahead := getLocalToPush env remote branch
          if !ahead.isEmpty then
            (false, "Branch has local commits not pushed to " ++ remote)
          else (true, "Can fast-forward from " ++ remote)

/-- canSafelyPull (gitcheck.py lines 344-378): dirty files and an empty remote
list short-circuit, then the remote loop decides. -/
def canSafelyPull (env : GitEnv) (branch : String) : Bool × String :=
  if (getLocalFilesChange env).length > 0 then (false, "Has uncommitted changes")
  else
    let remotes := getRemoteRepositories env
    if remotes.isEmpty then (false, "No remote configured")
    else canSafelyPullLoop env branch remotes

/-- The git command autoPullRepository issues (gitcheck.py lines 381-393):
`git pull --ff-only` exactly when canSafelyPull grants eligibility, nothing
otherwise. -/
def autoPullGitCommand (env : GitEnv) (branch : String) : Option String :=
  if (canSafelyPull env branch).1 then some "pull --ff-only" else none

/-- Eligibility as the specification words it (spec sections 3 and 4.6): no
dirty files, at least one remote, and SOME remote on which the branch is
behind by more than zero commits and ahead by zero.  Written from the spec's
words for comparison with `canSafelyPull`, which scans remotes in order. -/
def specEligibleAutoPull (env : GitEnv) (branch : String) : Bool :=
  (getLocalFilesChange env).isEmpty
    && !(getRemoteRepositories env).isEmpty
    && (getRemoteRepositories env).any fun r =>
        decide ((getRemoteToPull env r branch).length > 0)
          && decide ((getLocalToPush env r branch).length = 0)

/-- Two remotes, both with the tracking branch behind; the first is also
ahead, the second is ahead by zero.  The spec's existential grants
eligibility through the second remote, but the source loop stops at the
first. -/
def envFirstRemoteAhead : GitEnv :=
  { statusOut := ""
    remoteOut := "r1\nr2"
    branchROut := "  r1/b\n  r2/b"
    logOut := fun range =>
      if range == "b..r1/b" then "c1"
      else if range == "r1/b..b" then "c2"
      else if range == "b..r2/b" then "c3"
      else ""
    branchOut := "* b" }

/-- The candidate predicate the canSafelyPull loop scans remotes for: the
remote carries the tracking branch and the branch is behind on it. -/
def behindCandidate (env : GitEnv) (branch : String) (r : String) : Bool :=
  hasRemoteBranch env r branch && !(getRemoteToPull env r branch).isEmpty

/-- The loop of canSafelyPull succeeds exactly when the FIRST remote matching
`behindCandidate` exists and carries no unpushed local commits. -/
theorem canSafelyPullLoop_true_iff (env : GitEnv) (branch : String) (rs : List String) :
    (canSafelyPullLoop env branch rs).1 = true ↔
      ∃ r, rs.find? (behindCandidate env branch) = some r
        ∧ getLocalToPush env r branch = [] := by
  induction rs with
  | nil => simp [canSafelyPullLoop]
  | cons r rest ih =>
    by_cases h1 : hasRemoteBranch env r branch
    · by_cases h2 : (getRemoteToPull env r branch).isEmpty
      · have hc : behindCandidate env branch r = false := by
          simp [behindCandidate, h1, h2]
        simp [canSafelyPullLoop, h1, h2, hc, ih]
      · have hc : behindCandidate env branch r = true := by
          simp [behindCandidate, h1]
          simpa using h2
        by_cases h3 : (getLocalToPush env r branch).isEmpty
        · have h3' : getLocalToPush env r branch = [] := by simpa using h3
          simp [canSafelyPullLoop, h1, h2, h3, hc, h3']
        · have h3' : ¬ getLocalToPush env r branch = [] := by simpa using h3
          simp [canSafelyPullLoop, h1, h2, h3, hc, h3']
    · have hc : behindCandidate env branch r = false := by
        simp [behindCandidate, h1]
      simp [canSafelyPullLoop, h1, hc, ih]

/-- C1 (amended): auto-pull eligibility (canSafelyPull returning true) holds
if and only if the repository has no dirty files, has at least one remote,
and the FIRST remote in listed order that carries the tracking branch with a
positive behind count exists and has a zero ahead count; remotes after that
first candidate are never consulted, so the eligibility test is not an
existential over all remotes. -/
theorem canSafelyPull_eq_first_behind_candidate (env : GitEnv) (branch : String) :
    (canSafelyPull env branch).1 = true ↔
      getLocalFilesChange env = [] ∧ getRemoteRepositories env ≠ [] ∧
      ∃ r, (getRemoteRepositories env).find? (behindCandidate env branch) = some r
        ∧ getLocalToPush env r branch = [] := by
  by_cases hd : (getLocalFilesChange env).length > 0
  · have : ¬ getLocalFilesChange env = [] := by
      intro h; rw [h] at hd; simp at hd
    simp [canSafelyPull, hd, this]
  · have hdz : getLocalFilesChange env = [] :=
      List.length_eq_zero.mp (Nat.eq_zero_of_not_pos hd)
    by_cases hr : (getRemoteRepositories env).isEmpty
    · have hr' : getRemoteRepositories env = [] := by simpa using hr
      simp [canSafelyPull, hd, hr, hr']
    · have hr' : ¬ getRemoteRepositories env = [] := by simpa using hr
      simp [canSafelyPull, hd, hr, hdz, hr', canSafelyPullLoop_true_iff]

/-- C1 (counterexample): on `envFirstRemoteAhead` the spec's existential
eligibility holds (remote r2 is behind and not ahead) while canSafelyPull
returns false, because the scan stops at the first behind remote r1, which
has unpushed local commits.  So eligibility is NOT equivalent to the
existential the claim states. -/
theorem canSafelyPull_not_existential_counterexample :
    (canSafelyPull envFirstRemoteAhead "b")
        = (false, "Branch has local commits not pushed to r1")
      ∧ specEligibleAutoPull envFirstRemoteAhead "b" = true
      ∧ ¬ ((canSafelyPull envFirstRemoteAhead "b").1 = true
            ↔ specEligibleAutoPull envFirstRemoteAhead "b" = true) := by
  refine ⟨by decide, by decide, ?_⟩
  intro h
  have := h.mpr (by decide)
  exact absurd this (by decide)

/-! ## Claim C9: the two concrete auto-pull scenarios -/

/-- Scenario of C9's repository A as the claim states it: TWO dirty files,
one remote `origin`, branch behind by 3 and ahead by 0. -/
def envDirtyBehind : GitEnv :=
  { statusOut := " M file1\n M file2"
    remoteOut := "origin"
    branchROut := "  origin/main"
    logOut := fun range => if range == "main..origin/main" then "c1\nc2\nc3" else ""
    branchOut := "* main" }

/-- Repository A repaired: no dirty files, `origin` behind by 3, ahead by 0. -/
def envCleanBehind : GitEnv :=
  { statusOut := ""
    remoteOut := "origin"
    branchROut := "  origin/main"
    logOut := fun range => if range == "main..origin/main" then "c1\nc2\nc3" else ""
    branchOut := "* main" }

/-- Repository B: no dirty files, `origin` ahead by 1 and behind by 1. -/
def envCleanAhead : GitEnv :=
  { statusOut := ""
    remoteOut := "origin"
    branchROut := "  origin/main"
    logOut := fun range =>
      if range == "main..origin/main" then "c0"
      else if range == "origin/main..main" then "c1"
      else ""
    branchOut := "* main" }

/-- C9 (counterexample): the claim's repository A — 2 dirty files, origin
ahead=0 behind=3 — is NOT auto-pull eligible: canSafelyPull rejects it with
"Has uncommitted changes" and no pull command is issued, contradicting the
claimed eligibility and fast-forward pull. -/
theorem canSafelyPull_dirty_repo_counterexample :
    (getLocalFilesChange envDirtyBehind).length = 2
      ∧ (getRemoteToPull envDirtyBehind "origin" "main").length = 3
      ∧ (getLocalToPush envDirtyBehind "origin" "main").length = 0
      ∧ canSafelyPull envDirtyBehind "main" = (false, "Has uncommitted changes")
      ∧ autoPullGitCommand envDirtyBehind "main" = none := by
  decide

/-- C9 (amended): a repository with ZERO dirty files and a remote origin on
which the branch is ahead=0 and behind=3 is auto-pull eligible and triggers
the fast-forward-only pull command; a repository with 0 dirty files whose
branch is ahead=1 (and behind by at least 1) on its remote is not eligible,
with the reason reported as local commits not pushed to that remote. -/
theorem canSafelyPull_scenarios_amended :
    (getLocalFilesChange envCleanBehind).length = 0
      ∧ (getRemoteToPull envCleanBehind "origin" "main").length = 3
      ∧ (getLocalToPush envCleanBehind "origin" "main").length = 0
      ∧ canSafelyPull envCleanBehind "main" = (true, "Can fast-forward from origin")
      ∧ autoPullGitCommand envCleanBehind "main" = some "pull --ff-only"
      ∧ (getLocalFilesChange envCleanAhead).length = 0
      ∧ (getLocalToPush envCleanAhead "origin" "main").length = 1
      ∧ canSafelyPull envCleanAhead "main"
          = (false, "Branch has local commits not pushed to origin")
      ∧ autoPullGitCommand envCleanAhead "main" = none := by
  decide

/-! ## Claim C2: the once-per-opKind authentication retry gate
(gitcheck.py lines 320-341 and 404-428)

The source tracks "already retried" as a dynamic attribute set on the
handling function itself (updateRemote and autoPullRepository each carry
one), giving one process-global boolean per operation kind, absent at
process start.  `onAuthFailure` models the decision taken inside the
`isAuthenticationError` branch: in HTTPS mode, when the attribute is not yet
set it is set and the retry (prompt for a replacement token, force
re-conversion of the remote URLs, re-run of the command) is granted;
otherwise the failure is re-raised, terminal for that repository.  The state
carries no repository: the attribute is shared by every repository the
process touches. -/

/-- Operation kinds carrying independent retry gates. -/
inductive OpKind
  | update
  | pull
deriving DecidableEq

/-- Process-global retry state: one boolean per opKind, both false at
process start (the function attributes do not exist yet). -/
structure RetryState where
  updateAttempted : Bool
  pullAttempted : Bool
deriving DecidableEq

/-- State at process start: no retry attribute exists yet. -/
def initialRetryState : RetryState := ⟨false, false⟩

/-- Read the gate of one opKind (the Python hasattr test). -/
def gateOf : OpKind → RetryState → Bool
  | .update, s => s.updateAttempted
  | .pull, s => s.pullAttempted

/-- Set the gate of one opKind (the Python attribute assignment). -/
def setGate : OpKind → RetryState → RetryState
  | .update, s => { s with updateAttempted := true }
  | .pull, s => { s with pullAttempted := true }

/-- Decision on an authentication failure (gitcheck.py lines 322-341 and
406-424): a retry is granted, and the gate consumed, exactly when HTTPS mode
is on and the opKind's attribute is not yet set. -/
def onAuthFailure (useHttps : Bool) (op : OpKind) (s : RetryState) : Bool × RetryState :=
  if useHttps && !(gateOf op s) then (true, setGate op s) else (false, s)

/-- Run a sequence of authentication failures through the gate, collecting
each decision. -/
def runAuthFailures (useHttps : Bool) : List OpKind → RetryState → List Bool × RetryState
  | [], s => ([], s)
  | op :: rest, s =>
      let d := onAuthFailure useHttps op s
      let t := runAuthFailures useHttps rest d.2
      (d.1 :: t.1, t.2)

/-- A gate that is set survives any single decision, for any opKind. -/
theorem gateOf_onAuthFailure_mono (u : Bool) (op op' : OpKind) (s : RetryState)
    (h : gateOf op s = true) : gateOf op (onAuthFailure u op' s).2 = true := by
  cases op <;> cases op' <;>
    simp only [onAuthFailure, gateOf, setGate] at * <;> split <;> simp_all

/-- A gate that is set survives any further failure sequence. -/
theorem gateOf_runAuthFailures_mono (u : Bool) (op : OpKind) (events : List OpKind)
    (s : RetryState) (h : gateOf op s = true) :
    gateOf op (runAuthFailures u events s).2 = true := by
  induction events generalizing s with
  | nil => simpa [runAuthFailures] using h
  | cons e rest ih =>
      simpa [runAuthFailures] using ih _ (gateOf_onAuthFailure_mono u op e s h)

/-- C2: in HTTPS mode the retry gate of each opKind grants a retry exactly
once per process lifetime — the first authentication failure of an opKind is
granted and consumes that gate; once the gate is consumed, any later failure
of the same opKind (the state is process-global, so in any repository) is
denied with the state unchanged; the gate never resets over any further
failure sequence; and the two opKind gates are independent: deciding one
opKind never changes the other opKind's gate. -/
theorem onAuthFailure_grants_exactly_once (op : OpKind) (s : RetryState)
    (events : List OpKind) (h : gateOf op s = true) :
    (onAuthFailure true op initialRetryState).1 = true
      ∧ gateOf op (onAuthFailure true op initialRetryState).2 = true
      ∧ (onAuthFailure true op s).1 = false
      ∧ (onAuthFailure true op s).2 = s
      ∧ gateOf op (runAuthFailures true events s).2 = true
      ∧ (∀ op', op' ≠ op →
          ∀ t, gateOf op' (onAuthFailure true op t).2 = gateOf op' t) := by
  refine ⟨?_, ?_, ?_, ?_, gateOf_runAuthFailures_mono true op events s h, ?_⟩
  · cases op <;> simp [onAuthFailure, gateOf, setGate, initialRetryState]
  · cases op <;> simp [onAuthFailure, gateOf, setGate, initialRetryState]
  · simp [onAuthFailure, h]
  · simp [onAuthFailure, h]
  · intro op' hne t
    cases op <;> cases op' <;>
      simp only [onAuthFailure, gateOf, setGate] <;> split <;> simp_all

/-- C2 witness: the theorem at the update opKind, at the state reached after
the update gate was consumed, with a concrete later failure sequence. -/
theorem onAuthFailure_grants_exactly_once_witness :
    (onAuthFailure true OpKind.update initialRetryState).1 = true
      ∧ gateOf OpKind.update (onAuthFailure true OpKind.update initialRetryState).2 = true
      ∧ (onAuthFailure true OpKind.update (RetryState.mk true false)).1 = false
      ∧ (onAuthFailure true OpKind.update (RetryState.mk true false)).2
          = RetryState.mk true false
      ∧ gateOf OpKind.update
          (runAuthFailures true [OpKind.pull, OpKind.update] (RetryState.mk true false)).2
          = true
      ∧ (∀ op', op' ≠ OpKind.update →
          ∀ t, gateOf op' (onAuthFailure true OpKind.update t).2 = gateOf op' t) :=
  onAuthFailure_grants_exactly_once OpKind.update ⟨true, false⟩
    [OpKind.pull, OpKind.update] rfl

/-! ## Claim C4: failure classification in gitExec (gitcheck.py lines 550-563) -/

/-- Failure taxonomy of a nonzero-exit git command: the three recognized
kinds and the unclassified pass-through carrying the raw diagnostic. -/
inductive CmdFailure
  | timeout
  | dnsFailure
  | authFailed
  | unknown (raw : String)
deriving DecidableEq

/-- Python `error_msg.lower()` as used by the classifier. -/
def lowerStr (s : String) : String :=
  String.mk (s.toList.map Char.toLower)

/-- Classification of the diagnostic text of a failed git command
(gitcheck.py lines 556-563): fixed lowercase substrings are looked up, in
priority order, in the lowercased diagnostic; an unmatched diagnostic is
passed through raw. -/
def classifyFailure (errorMsg : String) : CmdFailure :=
  let low := lowerStr errorMsg
  if containsSub "timed out" low || containsSub "timeout" low then .timeout
  else if containsSub "could not resolve host" low then .dnsFailure
  else if containsSub "permission denied" low then .authFailed
  else .unknown errorMsg

/-- C4: the error kind of a nonzero-exit command failure is derived from the
raw diagnostic by fixed, priority-ordered, case-insensitive substring
matching — a diagnostic with a timeout indicator classifies as timeout even
when a DNS or permission indicator is also present, a DNS indicator without
a timeout indicator gives the DNS failure, a permission indicator without a
higher-priority indicator gives the authentication failure, and any other
diagnostic is passed through raw as unclassified. -/
theorem classifyFailure_priority (msg : String) :
    (classifyFailure msg = .timeout
        ↔ (containsSub "timed out" (lowerStr msg)
            || containsSub "timeout" (lowerStr msg)) = true)
      ∧ (classifyFailure msg = .dnsFailure
        ↔ (containsSub "timed out" (lowerStr msg)
              || containsSub "timeout" (lowerStr msg)) = false
            ∧ containsSub "could not resolve host" (lowerStr msg) = true)
      ∧ (classifyFailure msg = .authFailed
        ↔ (containsSub "timed out" (lowerStr msg)
              || containsSub "timeout" (lowerStr msg)) = false
            ∧ containsSub "could not resolve host" (lowerStr msg) = false
            ∧ containsSub "permission denied" (lowerStr msg) = true)
      ∧ (classifyFailure msg = .unknown msg
        ↔ (containsSub "timed out" (lowerStr msg)
              || containsSub "timeout" (lowerStr msg)) = false
            ∧ containsSub "could not resolve host" (lowerStr msg) = false
            ∧ containsSub "permission denied" (lowerStr msg) = false) := by
  by_cases h1 : (containsSub "timed out" (lowerStr msg)
      || containsSub "timeout" (lowerStr msg)) = true
  · simp [classifyFailure, h1]
  · by_cases h2 : containsSub "could not resolve host" (lowerStr msg) = true
    · simp [classifyFailure, h1, h2]
    · by_cases h3 : containsSub "permission denied" (lowerStr msg) = true
      · simp [classifyFailure, h1, h2, h3]
      · simp [classifyFailure, h1, h2, h3]

/-! ## UrlNormalizer (https_utils.py lines 165-246) -/

/-- Python `s.replace(pat, rep)`: every non-overlapping occurrence, scanned
left to right, is replaced, and the replacement text is not rescanned.  The
fuel argument, set by `pyReplace` to the length of the scanned list, only
bounds the recursion. -/
def replaceFuel (pat rep : List Char) : Nat → List Char → List Char
  | _, [] => []
  | 0, cs => cs
  | n + 1, c :: rest =>
      if pat ≠ [] && isPrefixChars pat (c :: rest) then
        rep ++ replaceFuel pat rep n ((c :: rest).drop pat.length)
      else c :: replaceFuel pat rep n rest

/-- Python `s.replace(pat, rep)` on strings. -/
def pyReplace (s pat rep : String) : String :=
  String.mk (replaceFuel pat.toList rep.toList s.toList.length s.toList)

/-- One attempted match of the credential-stripping regex at the current
position: the literal `https://oauth2:`, then at least one non-@ character,
then `@`.  Returns the remainder after the whole match. -/
def oauthMatchRest (cs : List Char) : Option (List Char) :=
  if isPrefixChars ("https://oauth2:".toList) cs then
    let after := cs.drop 15
    let tok := after.takeWhile fun c => c ≠ '@'
    if tok.length > 0 && ((after.drop tok.length).head? == some '@') then
      some (after.drop (tok.length + 1))
    else none
  else none

/-- Python re.sub stripping embedded oauth2 credential segments
(https_utils.py line 191): every match of `https://oauth2:[^@]+@` is
replaced by `https://`. -/
def stripOauthFuel : Nat → List Char → List Char
  | _, [] => []
  | 0, cs => cs
  | n + 1, c :: rest =>
      match oauthMatchRest (c :: rest) with
      | some after => "https://".toList ++ stripOauthFuel n after
      | none => c :: stripOauthFuel n rest

/-- Credential stripping on strings. -/
def stripOauth (s : String) : String :=
  String.mk (stripOauthFuel s.toList.length s.toList)

/-- Python re.match of `git@([^:]+):(.+)` (https_utils.py line 206): the
host is the maximal run of non-colon characters after `git@`, then a colon,
then at least one character; the path group, a greedy dot, stops at a
newline. -/
def gitAtMatch (s : String) : Option (String × String) :=
  let cs := s.toList
  if isPrefixChars ("git@".toList) cs then
    let rest := cs.drop 4
    let host := rest.takeWhile fun c => c ≠ ':'
    match rest.drop host.length with
    | ':' :: p =>
        if host ≠ [] && (p.takeWhile fun c => c ≠ '\n') ≠ [] then
          some (String.mk host, String.mk (p.takeWhile fun c => c ≠ '\n'))
        else none
    | _ => none
  else none

/-- Python re.match of `https://(.+)` (https_utils.py lines 221 and 229). -/
def httpsMatch (s : String) : Option String :=
  let cs := s.toList
  if isPrefixChars ("https://".toList) cs then
    let g := (cs.drop 8).takeWhile fun c => c ≠ '\n'
    if g ≠ [] then some (String.mk g) else none
  else none

/-- Result of one remote-URL conversion: the (success, message) pair that
https_utils.convertRemoteToHttps returns, together with the URL passed to
`git remote set-url` when one is (none when the remote is left unchanged). -/
structure ConvertResult where
  success : Bool
  message : String
  newUrl : Option String
deriving DecidableEq

/-- convertRemoteToHttps (https_utils.py lines 165-246) for a remote whose
`git remote get-url` output is `currentUrl`.  The empty token models the
falsy token (None or empty string); `git remote set-url` is assumed to
succeed, so the exception branch is unreachable here. -/
def convertRemoteToHttps (currentUrl gitlabToken : String) (forceUpdate : Bool) :
    ConvertResult :=
  if currentUrl = "" then ⟨false, "No remote URL found", none⟩
  else
    let cleanUrl :=
      if containsSub "oauth2:" currentUrl then stripOauth currentUrl else currentUrl
    if !forceUpdate && strStartsWith currentUrl "https://" && (gitlabToken != "")
        && containsSub ("oauth2:" ++ gitlabToken ++ "@") currentUrl then
      ⟨false, "Already using HTTPS with current token", none⟩
    else
      let newUrl0 : Option String :=
        if strStartsWith cleanUrl "git://" then
          some (pyReplace cleanUrl "git://" "https://")
        else if strStartsWith cleanUrl "git@" then
          match gitAtMatch cleanUrl with
          | some (host, path) => some ("https://" ++ host ++ "/" ++ path)
          | none => none
        else if strStartsWith cleanUrl "ssh://" then
          some (pyReplace (pyReplace cleanUrl "ssh://git@" "https://") "ssh://" "https://")
        else if strStartsWith cleanUrl "https://" && (gitlabToken != "") then
          match httpsMatch cleanUrl with
          | some rest => some ("https://oauth2:" ++ gitlabToken ++ "@" ++ rest)
          | none => none
        else none
      match newUrl0 with
      | none => ⟨false, "URL format not recognized for conversion", none⟩
      | some u =>
          let u2 :=
            if (gitlabToken != "") && !(containsSub "oauth2:" u) then
              match httpsMatch u with
              | some rest => "https://oauth2:" ++ gitlabToken ++ "@" ++ rest
              | none => u
            else u
          let displayUrl :=
            if gitlabToken != "" then pyReplace u2 gitlabToken "***TOKEN***" else u2
          ⟨true, "Converted " ++ currentUrl ++ " -> " ++ displayUrl, some u2⟩

/-- C7: converting `git://h/p` with no token yields `https://h/p`, and
re-applying the conversion to that result rewrites nothing: the second call
reports the URL unchanged (success false, no set-url issued), so the scheme
is never rewritten twice. -/
theorem convertRemoteToHttps_git_scheme_idempotent :
    convertRemoteToHttps "git://h/p" "" false
        = ⟨true, "Converted git://h/p -> https://h/p", some "https://h/p"⟩
      ∧ convertRemoteToHttps "https://h/p" "" false
        = ⟨false, "URL format not recognized for conversion", none⟩ := by
  decide

/-- C8: converting the bare `https://h/p` with token `T` injects the token
as a credential segment in the authority, yielding `https://oauth2:T@h/p`,
and a second conversion of that result with the same token and force=false
is a no-op reporting the URL unchanged. -/
theorem convertRemoteToHttps_token_injection_noop :
    convertRemoteToHttps "https://h/p" "T" false
        = ⟨true, "Converted https://h/p -> https://oauth2:***TOKEN***@h/p",
            some "https://oauth2:T@h/p"⟩
      ∧ convertRemoteToHttps "https://oauth2:T@h/p" "T" false
        = ⟨false, "Already using HTTPS with current token", none⟩ := by
  decide

/-- C6: the sanitizer of https_utils.py lines 236-241 replaces the CURRENT
token only in the NEW URL half of the success message; the old URL is
embedded verbatim, so a remote whose URL already carries a previously
embedded token `OLD` produces, under a fresh token `NEW`, a human-facing
message still containing `OLD` — the claim that every token occurrence is
replaced by the placeholder fails on this input. -/
theorem convertRemoteToHttps_message_leaks_old_token :
    convertRemoteToHttps "https://oauth2:OLD@h/p" "NEW" false
        = ⟨true, "Converted https://oauth2:OLD@h/p -> https://oauth2:***TOKEN***@h/p",
            some "https://oauth2:NEW@h/p"⟩
      ∧ containsSub "OLD"
          (convertRemoteToHttps "https://oauth2:OLD@h/p" "NEW" false).message = true := by
  decide

/-! ## Claim C5: argument-vector construction in gitExec
(gitcheck.py lines 495-498)

The source does NOT build the vector structurally: it formats one command
string, `git -C "<path>" <cmd>`, and re-tokenizes it with shlex.split.  The
tokenizer is modelled below with Python shlex's POSIX rules. -/

/-- Tokenizer state of Python shlex in POSIX mode: outside quotes, inside a
single-quoted section, inside a double-quoted section. -/
inductive ShlexMode
  | normal
  | inSingle
  | inDouble

/-- Python shlex.split, POSIX rules with whitespace tokenization: `cur` is
the currently open token reversed (none when no token is open) and `acc`
the finished tokens reversed; the none result models the ValueError raised
on an unclosed quote or a dangling escape. -/
def shlexAux : List Char → ShlexMode → Option (List Char) → List String → Option (List String)
  | [], .normal, none, acc => some acc.reverse
  | [], .normal, some t, acc => some (String.mk t.reverse :: acc).reverse
  | [], .inSingle, _, _ => none
  | [], .inDouble, _, _ => none
  | c :: rest, .normal, cur, acc =>
      if c == '\\' then
        match rest with
        | [] => none
        | c2 :: rest2 => shlexAux rest2 .normal (some (c2 :: cur.getD [])) acc
      else if c == '\'' then shlexAux rest .inSingle (some (cur.getD [])) acc
      else if c == '"' then shlexAux rest .inDouble (some (cur.getD [])) acc
      else if c == ' ' || c == '\t' || c == '\n' || c == '\r' then
        match cur with
        | none => shlexAux rest .normal none acc
        | some t => shlexAux rest .normal none (String.mk t.reverse :: acc)
      else shlexAux rest .normal (some (c :: cur.getD [])) acc
  | c :: rest, .inSingle, cur, acc =>
      if c == '\'' then shlexAux rest .normal cur acc
      else shlexAux rest .inSingle (some (c :: cur.getD [])) acc
  | c :: rest, .inDouble, cur, acc =>
      if c == '"' then shlexAux rest .normal cur acc
      else if c == '\\' then
        match rest with
        | [] => none
        | c2 :: rest2 =>
            if c2 == '"' || c2 == '\\' then
              shlexAux rest2 .inDouble (some (c2 :: cur.getD [])) acc
            else shlexAux rest2 .inDouble (some (c2 :: '\\' :: cur.getD [])) acc
      else shlexAux rest .inDouble (some (c :: cur.getD [])) acc

/-- Python shlex.split on a string. -/
def shlexSplit (s : String) : Option (List String) :=
  shlexAux s.toList .normal none []

/-- Argument-vector construction of gitExec (gitcheck.py lines 496-497):
`commandToExecute = "git -C \"%s\" %s" % (path, cmd)` followed by
`shlex.split(commandToExecute)`. -/
def gitExecArgv (path cmd : String) : Option (List String) :=
  shlexSplit ("git -C \"" ++ path ++ "\" " ++ cmd)

/-- Argument vector as a structural construction would build it (spec
sections 4.2 and 9): the program name, the flag, the path as ONE element,
then the subcommand arguments. -/
def structuralArgv (path : String) (args : List String) : List String :=
  "git" :: "-C" :: path :: args

/-- C5 (code violates the claim): gitExec formats one command string and
re-tokenizes it, so while an ordinary path survives, a path containing a
double-quote character is mis-split — the path `a" "b` arrives as the TWO
argv elements `a` and `b` instead of one — and a path with an unmatched
quote (`a"b`) makes the tokenizer raise instead of executing.  A structural
construction would pass the path as a single element in both cases. -/
theorem gitExec_argv_missplits_quoted_path :
    gitExecArgv "myrepo" "remote update"
        = some ["git", "-C", "myrepo", "remote", "update"]
      ∧ gitExecArgv "a\" \"b" "remote" = some ["git", "-C", "a", "b", "remote"]
      ∧ gitExecArgv "a\" \"b" "remote" ≠ some (structuralArgv "a\" \"b" ["remote"])
      ∧ structuralArgv "a\" \"b" ["remote"] = ["git", "-C", "a\" \"b", "remote"]
      ∧ gitExecArgv "a\"b" "remote" = none := by
  decide

/-! ## SyncOrchestrator (gitcheck.py lines 431-460, 464-474, 568-623) -/

/-- Exceptions one repository's processing can raise: the subprocess timeout
that processRepository catches separately, and a generic failure carrying
its message. -/
inductive GitError
  | timeoutExpired
  | failure (msg : String)
deriving DecidableEq

/-- Error text recorded by processRepository (gitcheck.py lines 455-458). -/
def errorMessage : GitError → String
  | .timeoutExpired => "Timeout (30s) - remote not responding"
  | .failure msg => msg

/-- Outcome record built by processRepository (gitcheck.py lines 433-439). -/
structure SyncOutcome where
  path : String
  success : Bool
  updated : Bool
  pulled : Bool
  error : Option String
deriving DecidableEq

/-- Effects of the git operations on one repository as processRepository
observes them: the result of updateRemote, the result of getDefaultBranch,
and per branch what autoPullRepository returns — it can raise through
canSafelyPull's inspector calls, while its own pull failures it swallows
into a false return. -/
structure RepoBehavior where
  updateResult : Except GitError Unit
  branchResult : Except GitError (List String)
  pullResult : String → Except GitError Bool

/-- The auto-pull loop of processRepository (gitcheck.py lines 449-452):
falsy (empty) branches are skipped; `pulled` is the flag accumulated so far
and is returned alongside the error when a branch raises, preserving the
partially mutated record. -/
def pullBranches (pullResult : String → Except GitError Bool) :
    List String → Bool → Bool ⊕ (Bool × GitError)
  | [], pulled => Sum.inl pulled
  | br :: rest, pulled =>
      if br ≠ "" then
        match pullResult br with
        | .error e => Sum.inr (pulled, e)
        | .ok r => pullBranches pullResult rest (pulled || r)
      else pullBranches pullResult rest pulled

/-- processRepository (gitcheck.py lines 431-460): the whole body runs under
a try that turns a timeout into a fixed message and any other exception into
its text, so an outcome record with the repository's path is returned in
every case and no failure escapes the per-repository boundary. -/
def processRepository (repoPath : String) (autopull : Bool) (b : RepoBehavior) :
    SyncOutcome :=
  match b.updateResult with
  | .error e => ⟨repoPath, false, false, false, some (errorMessage e)⟩
  | .ok () =>
      if autopull then
        match b.branchResult with
        | .error e => ⟨repoPath, false, true, false, some (errorMessage e)⟩
        | .ok branchSet =>
            match pullBranches b.pullResult branchSet false with
            | Sum.inl pulled => ⟨repoPath, true, true, pulled, none⟩
            | Sum.inr (pulled, e) =>
                ⟨repoPath, false, true, pulled, some (errorMessage e)⟩
      else ⟨repoPath, true, true, false, none⟩

/-- Lexicographic code-point comparison of character lists: the order Python
`sorted` uses on strings. -/
def charLe : List Char → List Char → Bool
  | [], _ => true
  | _ :: _, [] => false
  | a :: as, b :: bs => if a == b then charLe as bs else decide (a < b)

/-- Python string comparison for `sorted`. -/
def strLe (a b : String) : Bool := charLe a.toList b.toList

/-- Insertion step of the sort. -/
def insertSorted (a : String) : List String → List String
  | [] => [a]
  | b :: rest => if strLe a b then a :: b :: rest else b :: insertSorted a rest

/-- Python `sorted` on strings (insertion sort; only its permutation
property is used below). -/
def sortStrings : List String → List String
  | [] => []
  | a :: rest => insertSorted a (sortStrings rest)

/-- Python `set(...)`: duplicates removed. -/
def pyDedup : List String → List String
  | [] => []
  | a :: rest => if rest.contains a then pyDedup rest else a :: pyDedup rest

/-- searchRepositories (gitcheck.py lines 76-96): the directories found to
contain git metadata — listed here in walk order, duplicates included — are
collected into a set and returned sorted. -/
def searchRepositories (found : List String) : List String :=
  sortStrings (pyDedup found)

/-- The parallel section of gitcheck (lines 603-623): every repository of
the scan is submitted exactly once, and as_completed hands back the
workers' outcomes in an arbitrary completion order, modelled as any
permutation `order` of the repository list; each future runs
processRepository on its repository. -/
def runAll (autopull : Bool) (beh : String → RepoBehavior) (order : List String) :
    List SyncOutcome :=
  order.map fun r => processRepository r autopull (beh r)

/-- getDefaultBranch (gitcheck.py lines 464-474): the MULTILINE search for
`^\* (.*)` takes the first line starting with the current marker `* `; its
remainder is the branch, the empty string when no line matches; the result
is the one-element set containing that branch. -/
def getDefaultBranch (branchListing : String) : List String :=
  [match (splitLines branchListing).find? (fun l => strStartsWith l "* ") with
   | some l => strDrop l 2
   | none => ""]

/-- Membership is preserved by dedup. -/
theorem mem_pyDedup {x : String} : ∀ {l : List String}, x ∈ pyDedup l ↔ x ∈ l := by
  intro l
  induction l with
  | nil => simp [pyDedup]
  | cons a rest ih =>
      by_cases h : rest.contains a = true
      · have ha : a ∈ rest := by simpa using h
        simp only [pyDedup, if_pos h, ih, List.mem_cons]
        constructor
        · exact Or.inr
        · rintro (rfl | hx)
          · exact ha
          · exact hx
      · simp only [pyDedup, if_neg h, List.mem_cons, ih]

/-- Dedup produces a duplicate-free list. -/
theorem nodup_pyDedup : ∀ (l : List String), (pyDedup l).Nodup := by
  intro l
  induction l with
  | nil => simp [pyDedup]
  | cons a rest ih =>
      by_cases h : rest.contains a = true
      · simp only [pyDedup, if_pos h]
        exact ih
      · have ha : a ∉ rest := by simpa using h
        simp only [pyDedup, if_neg h]
        exact List.nodup_cons.mpr ⟨fun hx => ha (mem_pyDedup.mp hx), ih⟩

/-- Inserting into the sort permutes a cons. -/
theorem insertSorted_perm (a : String) (l : List String) :
    (insertSorted a l).Perm (a :: l) := by
  induction l with
  | nil => simp [insertSorted]
  | cons b rest ih =>
      by_cases h : strLe a b = true
      · simp [insertSorted, h]
      · simp only [insertSorted, if_neg h]
        exact ((ih.cons b).trans (List.Perm.swap a b rest))

/-- The sort is a permutation. -/
theorem sortStrings_perm (l : List String) : (sortStrings l).Perm l := by
  induction l with
  | nil => simp [sortStrings]
  | cons a rest ih => exact (insertSorted_perm a (sortStrings rest)).trans (ih.cons a)

/-- The scanned repository list has pairwise-distinct paths. -/
theorem searchRepositories_nodup (found : List String) :
    (searchRepositories found).Nodup :=
  ((sortStrings_perm (pyDedup found)).nodup_iff).mpr (nodup_pyDedup found)

/-- Every outcome carries the path of the repository it was built for. -/
theorem processRepository_path (p : String) (a : Bool) (b : RepoBehavior) :
    (processRepository p a b).path = p := by
  unfold processRepository
  rcases b.updateResult with e | u
  · rfl
  · cases u
    cases a
    · rfl
    · rcases b.branchResult with e | bs
      · rfl
      · simp only [if_true]
        rcases pullBranches b.pullResult bs false with pulled | pe
        · rfl
        · rfl

/-- Every outcome either succeeded with no error or failed with the raised
error's message captured in the error field. -/
theorem processRepository_error_cases (p : String) (a : Bool) (b : RepoBehavior) :
    ((processRepository p a b).success = true ∧ (processRepository p a b).error = none)
      ∨ ((processRepository p a b).success = false
          ∧ ∃ e, (processRepository p a b).error = some (errorMessage e)) := by
  unfold processRepository
  rcases b.updateResult with e | u
  · exact Or.inr ⟨rfl, e, rfl⟩
  · cases u
    cases a
    · exact Or.inl ⟨rfl, rfl⟩
    · rcases b.branchResult with e | bs
      · exact Or.inr ⟨rfl, e, rfl⟩
      · simp only [if_true]
        rcases pullBranches b.pullResult bs false with pulled | pe
        · exact Or.inl ⟨rfl, rfl⟩
        · exact Or.inr ⟨rfl, pe.2, rfl⟩

/-- The outcome paths of a run are exactly the completion order. -/
theorem runAll_map_path (autopull : Bool) (beh : String → RepoBehavior)
    (order : List String) :
    (runAll autopull beh order).map (fun o => o.path) = order := by
  induction order with
  | nil => rfl
  | cons r rest ih => simpa [runAll, processRepository_path] using ih

/-- C3: for every scanned repository set, the orchestration run produces
exactly one outcome record per repository — the outcome paths are a
permutation of the repository list and are pairwise distinct, and for each
repository the outcomes filtered to its path are exactly the one record its
own processing determines, independent of the worker completion order —
and no exception escapes the per-repository boundary: every outcome either
succeeded with no error or carries the raised error's message in its error
field while the other repositories still each get their outcome. -/
theorem gitcheck_outcomes_per_repository (found : List String) (autopull : Bool)
    (beh : String → RepoBehavior) (order : List String)
    (h : order.Perm (searchRepositories found)) :
    (runAll autopull beh order).length = (searchRepositories found).length
      ∧ ((runAll autopull beh order).map (fun o => o.path)).Perm
          (searchRepositories found)
      ∧ ((runAll autopull beh order).map (fun o => o.path)).Nodup
      ∧ (∀ r ∈ searchRepositories found,
          (runAll autopull beh order).filter (fun o => o.path == r)
            = [processRepository r autopull (beh r)])
      ∧ (∀ o ∈ runAll autopull beh order,
          (o.success = true ∧ o.error = none)
            ∨ (o.success = false ∧ ∃ e, o.error = some (errorMessage e))) := by
  have hmap := runAll_map_path autopull beh order
  have hnd : order.Nodup := h.nodup_iff.mpr (searchRepositories_nodup found)
  refine ⟨?_, ?_, ?_, ?_, ?_⟩
  · have h1 : (runAll autopull beh order).length = order.length := by simp [runAll]
    rw [h1, h.length_eq]
  · rw [hmap]; exact h
  · rw [hmap]; exact hnd
  · intro r hr
    have hcount : order.count r = 1 :=
      List.count_eq_one_of_mem hnd (h.mem_iff.mpr hr)
    rw [runAll, List.filter_map]
    have hpred : (order.filter fun x =>
        ((fun o => o.path == r) ∘ fun x => processRepository x autopull (beh x)) x)
        = order.filter (fun x => x == r) := by
      apply List.filter_congr
      intro x hx
      simp [Function.comp, processRepository_path]
    rw [hpred]
    rw [List.filter_beq]
    rw [hcount]
    rfl
  · intro o ho
    rw [runAll] at ho
    rcases List.mem_map.mp ho with ⟨r, hrmem, rfl⟩
    exact processRepository_error_cases r autopull (beh r)

/-- Concrete behavior for the C3 witness: one repository updates and pulls
cleanly, the other's update raises. -/
def sampleBehavior : String → RepoBehavior := fun r =>
  if r == "repoA" then ⟨.ok (), .ok ["main"], fun _ => .ok true⟩
  else ⟨.error (.failure "boom"), .ok ["main"], fun _ => .ok true⟩

/-- C3 witness: the theorem at a concrete scan with a duplicate, a
completion order different from the sorted order, and a behavior where one
repository fails. -/
theorem gitcheck_outcomes_per_repository_witness :
    (runAll true sampleBehavior ["repoB", "repoA"]).length
        = (searchRepositories ["repoB", "repoA", "repoB"]).length
      ∧ ((runAll true sampleBehavior ["repoB", "repoA"]).map (fun o => o.path)).Perm
          (searchRepositories ["repoB", "repoA", "repoB"])
      ∧ ((runAll true sampleBehavior ["repoB", "repoA"]).map (fun o => o.path)).Nodup
      ∧ (∀ r ∈ searchRepositories ["repoB", "repoA", "repoB"],
          (runAll true sampleBehavior ["repoB", "repoA"]).filter (fun o => o.path == r)
            = [processRepository r true (sampleBehavior r)])
      ∧ (∀ o ∈ runAll true sampleBehavior ["repoB", "repoA"],
          (o.success = true ∧ o.error = none)
            ∨ (o.success = false ∧ ∃ e, o.error = some (errorMessage e))) :=
  gitcheck_outcomes_per_repository ["repoB", "repoA", "repoB"] true sampleBehavior
    ["repoB", "repoA"] (by decide)

/-- C10: getDefaultBranch always returns a set of exactly one element — the
remainder of the first line carrying the current marker when one exists, the
empty string otherwise — and downstream, processRepository with the
branch set containing only the empty string skips auto-pull entirely: the
outcome does not depend on the pull behavior, nothing is pulled, and the
repository still succeeds. -/
theorem getDefaultBranch_singleton_and_skip (branchListing path : String)
    (upd : Except GitError Unit) (pr pr2 : String → Except GitError Bool) :
    (getDefaultBranch branchListing).length = 1
      ∧ (∀ l, (splitLines branchListing).find? (fun l => strStartsWith l "* ") = some l →
          getDefaultBranch branchListing = [strDrop l 2])
      ∧ ((splitLines branchListing).find? (fun l => strStartsWith l "* ") = none →
          getDefaultBranch branchListing = [""])
      ∧ processRepository path true ⟨upd, Except.ok [""], pr⟩
          = processRepository path true ⟨upd, Except.ok [""], pr2⟩
      ∧ (processRepository path true ⟨Except.ok (), Except.ok [""], pr⟩).pulled = false
      ∧ (processRepository path true ⟨Except.ok (), Except.ok [""], pr⟩).success
          = true := by
  refine ⟨rfl, ?_, ?_, ?_, ?_, ?_⟩
  · intro l h
    simp [getDefaultBranch, h]
  · intro h
    simp [getDefaultBranch, h]
  · rcases upd with e | u
    · rfl
    · cases u
      simp [processRepository, pullBranches]
  · simp [processRepository, pullBranches]
  · simp [processRepository, pullBranches]

end Gitcheck
